import Mathlib

/-!
Verification of the robot-swarm decision-making protocol.

Shallow embedding of the per-message state effects of `robot.py`
(class `RobotVoter`: `_on_ready`, `_on_message_callback`, `_process_results`),
`robot_sync.py` (class `RobotVoter`: `_on_proposal_message_callback`,
`_process_results`) and `barrier.py` (`on_ready_message`).

Bus plumbing (connections, queue declarations, publishing of this agent's own
messages) is out of scope; the embedding captures each callback as a pure step
function from agent state and an inbound delivery to the new agent state plus
its observable effects (acknowledgement, broadcasts, `stop_consuming`).
-/

namespace Swarm

/-- A decoded wire message: a JSON object whose fields `type`, `robot_id` and
`proposal` may each be absent (`message.get` returns `None` for a missing key).
Values are modelled as strings, per the wire schema. -/
structure Msg where
  typ : Option String
  robotId : Option String
  proposal : Option String
deriving DecidableEq

/-- An inbound delivery: either a body that fails to decode
(`json.JSONDecodeError`) or a decoded message. -/
inductive Inbound where
  | undecodable : Inbound
  | msg : Msg → Inbound
deriving DecidableEq

/-- Outcome of a `_process_results` call: a raised exception (the message text
omits the interpolated robot id prefix), an assignment to `final_decision`, or
a return that leaves `final_decision` untouched. -/
inductive Outcome where
  | raised : String → Outcome
  | set : String → Outcome
  | unset : Outcome
deriving DecidableEq

/-- Keys of `collections.Counter(l)` in first-occurrence order, accumulating
the keys already seen. -/
def keysAux (seen : List String) : List String → List String
  | [] => []
  | x :: xs => if x ∈ seen then keysAux seen xs else x :: keysAux (x :: seen) xs

/-- The distinct values of `l` in first-occurrence order: the iteration order
of `collections.Counter(l)` (Python dicts preserve insertion order). -/
def counterKeys (l : List String) : List String := keysAux [] l

/-- Python `max` over a list of counts.  The counts are all positive and the
list is non-empty wherever this is used, so folding `Nat.max` from `0` agrees
with Python `max`. -/
def maxNat (l : List Nat) : Nat := l.foldr Nat.max 0

/-- `max(vote_counts.values())`: the count of a key `k` in
`collections.Counter(l)` is `l.count k`. -/
def maxVotes (l : List String) : Nat :=
  maxNat ((counterKeys l).map (fun k => l.count k))

/-- `[proposal for proposal, count in vote_counts.items() if count == max_votes]`. -/
def voteWinners (l : List String) : List String :=
  (counterKeys l).filter (fun k => l.count k == maxVotes l)

/-- Lexicographic order on code-point sequences: the comparison Python uses
between strings. -/
def charsLe : List Char → List Char → Bool
  | [], _ => true
  | _ :: _, [] => false
  | a :: as, b :: bs => if a < b then true else if a = b then charsLe as bs else false

/-- Python string comparison `s <= t`: lexicographic on code points. -/
def strLe (s t : String) : Bool := charsLe s.data t.data

/-- Insert a string into a list so that an already ascending list stays
ascending. -/
def insertSorted (x : String) : List String → List String
  | [] => [x]
  | y :: ys => if strLe x y then x :: y :: ys else y :: insertSorted x ys

/-- Python `list.sort()` on strings (insertion sort; Python uses a different
stable sort, but the sorted result on a list of strings is the same up to
the order of equal elements, and equal strings are identical). -/
def sortStrings : List String → List String
  | [] => []
  | x :: xs => insertSorted x (sortStrings xs)

/-- The decision branch of `robot.py _process_results` (lines 102-120), after
the non-empty check: a unique winner is the decision; several winners are
sorted and the first is taken; the `winners == []` case falls through both
branches leaving `final_decision` untouched (it is unreachable). -/
def tallyRobot (l : List String) : Outcome :=
  match voteWinners l with
  | [w] => Outcome.set w
  | [] => Outcome.unset
  | ws =>
    match sortStrings ws with
    | w :: _ => Outcome.set w
    | [] => Outcome.unset

/-- The decision branch of `robot_sync.py _process_results` (lines 99-110):
same tally, but the tie branch is a plain `else`, so `winners == []` would
evaluate `winners[0]` on an empty list (unreachable `IndexError`). -/
def tallySync (l : List String) : Outcome :=
  match voteWinners l with
  | [w] => Outcome.set w
  | ws =>
    match sortStrings ws with
    | w :: _ => Outcome.set w
    | [] => Outcome.raised "list index out of range"

/-- `robot.py _process_results` (lines 95-120): raises `RuntimeError` iff no
proposals were received, otherwise tallies. -/
def processResults (l : List String) : Outcome :=
  if l.isEmpty then Outcome.raised "No proposals received. Cannot determine decision"
  else tallyRobot l

/-- `robot_sync.py _process_results` (lines 92-110): raises `RuntimeError`
when the list is empty or shorter than the swarm size, otherwise tallies. -/
def processResultsSync (swarmSize : Nat) (l : List String) : Outcome :=
  if l.isEmpty ∨ l.length < swarmSize then
    Outcome.raised "Not enough proposals received. Cannot determine decision"
  else tallySync l

example : processResults ["x", "y", "x"] = Outcome.set "x" := by decide
example : processResults ["b", "a", "b", "a", "c"] = Outcome.set "a" := by decide
example : processResults ["x", "y"] = Outcome.set "x" := by decide
example : processResultsSync 3 ["x", "y"]
    = Outcome.raised "Not enough proposals received. Cannot determine decision" := by decide

/-! ### `robot.py` — `RobotVoter` state and message callbacks -/

/-- The round-relevant mutable state of a `robot.py RobotVoter` (lines 22-34):
`ready_robots` is a Python set of the raw `robot_id` field values (which may be
`None`, since `_on_ready` does not null-check the sender). -/
structure RState where
  swarmSize : Nat
  readyRobots : Finset (Option String)
  receivedProposals : List String
  finalDecision : Option String
deriving DecidableEq

/-- Observable effect of one callback invocation in `robot.py`: the new state,
whether the delivery was acknowledged, and whether `stop_consuming` was
called. -/
structure REffect where
  state : RState
  acked : Bool
  stopConsuming : Bool
deriving DecidableEq

/-- `RobotVoter.__init__` state (robot.py lines 22-34). -/
def robotInit (n : Nat) : RState := ⟨n, ∅, [], none⟩

/-- `robot.py _on_ready` (lines 37-54), on an already decoded message (the
callback calls `json.loads` without a handler, so only decodable bodies reach
this logic): a `ready` message's sender is added to `ready_robots` unless
already present; every message is acknowledged; consumption stops when the
ready count equals the swarm size. -/
def onReady (s : RState) (m : Msg) : REffect :=
  let s' :=
    if m.typ = some "ready" then
      if m.robotId ∈ s.readyRobots then s
      else { s with readyRobots := insert m.robotId s.readyRobots }
    else s
  ⟨s', true, s'.readyRobots.card == s'.swarmSize⟩

/-- `robot.py _on_message_callback` (lines 57-92): a `proposal` message with a
truthy `proposal` field (present and non-empty) is appended to
`received_proposals` — with no cap check; a `ready` message is ignored; any
other shape, and an undecodable body, is logged and dropped.  Every path
acknowledges the delivery. -/
def onMessage (s : RState) (b : Inbound) : REffect :=
  match b with
  | Inbound.undecodable => ⟨s, true, false⟩
  | Inbound.msg m =>
    if m.typ = some "proposal" then
      let s' :=
        match m.proposal with
        | some p =>
          if p = "" then s
          else { s with receivedProposals := s.receivedProposals ++ [p] }
        | none => s
      ⟨s', true, s'.receivedProposals.length == s'.swarmSize⟩
    else if m.typ = some "ready" then ⟨s, true, false⟩
    else ⟨s, true, false⟩

/-- State after the ready-phase callback has handled each message in turn. -/
def runReady (s : RState) : List Msg → RState
  | [] => s
  | m :: ms => runReady (onReady s m).state ms

/-- State after the proposal-phase callback has handled each delivery in
turn. -/
def runMessages (s : RState) : List Inbound → RState
  | [] => s
  | b :: bs => runMessages (onMessage s b).state bs

/-- A `ready` wire message from the given raw `robot_id` field value. -/
def readyMsg (sender : Option String) : Msg := ⟨some "ready", sender, none⟩

/-! ### `robot_sync.py` — `RobotVoter` state and proposal callback -/

/-- The round-relevant mutable state of a `robot_sync.py RobotVoter`
(lines 22-34). -/
structure SState where
  swarmSize : Nat
  receivedProposals : List String
  startSignalReceived : Bool
  finalDecision : Option String
deriving DecidableEq

/-- Observable effect of one proposal-callback invocation in
`robot_sync.py`. -/
structure SEffect where
  state : SState
  acked : Bool
  stopConsuming : Bool
deriving DecidableEq

/-- `robot_sync.py _on_proposal_message_callback` (lines 61-89): a message
with a non-`None` sender and type `proposal` whose `proposal` field is present
is appended only while fewer than `swarm_size` proposals are held; anything
else is logged and dropped.  Every path acknowledges the delivery. -/
def onProposalMessage (s : SState) (b : Inbound) : SEffect :=
  match b with
  | Inbound.undecodable => ⟨s, true, false⟩
  | Inbound.msg m =>
    match m.robotId with
    | none => ⟨s, true, false⟩
    | some _ =>
      if m.typ = some "proposal" then
        let s' :=
          match m.proposal with
          | some p =>
            if s.receivedProposals.length < s.swarmSize then
              { s with receivedProposals := s.receivedProposals ++ [p] }
            else s
          | none => s
        ⟨s', true, s'.receivedProposals.length == s'.swarmSize⟩
      else ⟨s, true, false⟩

/-! ### `barrier.py` — coordinator state and ready callback -/

/-- The module-level mutable state of `barrier.py` (lines 13-17). -/
structure BState where
  swarmSize : Nat
  readyRobots : Finset String
  startSignalSent : Bool
deriving DecidableEq

/-- Observable effect of one `on_ready_message` invocation: the new state,
acknowledgement, the number of `start_voting` broadcasts published during the
step, and whether `stop_consuming` was called. -/
structure BEffect where
  state : BState
  acked : Bool
  broadcasts : Nat
  stopConsuming : Bool
deriving DecidableEq

/-- `barrier.py` state right after `main` resets it (lines 77-80). -/
def barrierInit (n : Nat) : BState := ⟨n, ∅, false⟩

/-- `barrier.py on_ready_message` (lines 20-71): once the start signal has
been sent every delivery is acknowledged and otherwise ignored; before that, a
decodable message with a non-`None` sender and type `ready` adds the sender to
`ready_robots` (if new) and, when the ready count equals the swarm size,
broadcasts the `start_voting` signal once, sets `start_signal_sent` and stops
consuming; malformed messages are logged and dropped.  Every path acknowledges
the delivery. -/
def onReadyMessage (s : BState) (b : Inbound) : BEffect :=
  if s.startSignalSent then ⟨s, true, 0, false⟩
  else
    match b with
    | Inbound.undecodable => ⟨s, true, 0, false⟩
    | Inbound.msg m =>
      match m.robotId with
      | none => ⟨s, true, 0, false⟩
      | some sender =>
        if m.typ = some "ready" then
          let ready' :=
            if sender ∈ s.readyRobots then s.readyRobots
            else insert sender s.readyRobots
          if ready'.card = s.swarmSize then
            ⟨⟨s.swarmSize, ready', true⟩, true, 1, true⟩
          else
            ⟨⟨s.swarmSize, ready', false⟩, true, 0, false⟩
        else ⟨s, true, 0, false⟩

/-- State and total number of `start_voting` broadcasts after the barrier has
handled each delivery in turn. -/
def runBarrier (s : BState) : List Inbound → BState × Nat
  | [] => (s, 0)
  | b :: bs =>
    let e := onReadyMessage s b
    let r := runBarrier e.state bs
    (r.1, e.broadcasts + r.2)

/-- A well-formed `ready` delivery from the given sender. -/
def readyFrom (sender : String) : Inbound := Inbound.msg ⟨some "ready", some sender, none⟩

/-- Barrier state after processing the `ready` deliveries of the given
senders, from a fresh round. -/
def barrierStateAfter (n : Nat) (senders : List String) : BState :=
  (runBarrier (barrierInit n) (senders.map readyFrom)).1

/-- Number of `start_voting` broadcasts the barrier publishes while processing
the `ready` deliveries of the given senders, from a fresh round. -/
def barrierBroadcastCount (n : Nat) (senders : List String) : Nat :=
  (runBarrier (barrierInit n) (senders.map readyFrom)).2

/-! ### Message classification for the proposal phase of `robot.py` -/

/-- A delivery that `robot.py _on_message_callback` records: decodable, type
`proposal`, and a truthy `proposal` field. -/
def isValidProposal : Inbound → Bool
  | Inbound.undecodable => false
  | Inbound.msg m =>
    m.typ == some "proposal" &&
      (match m.proposal with
       | some p => p != ""
       | none => false)

/-- A malformed delivery, per the spec's wire schema and taxonomy
(undecodable payload, missing required field, unrecognized type): an
undecodable body; a message with no `type`; a `ready` or `proposal` message
missing its required `robot_id`; a `proposal` message missing its required
`proposal` value; or a message of unrecognized type.  A well-formed `ready`
message is stale in the proposal phase, not malformed. -/
def isMalformed : Inbound → Bool
  | Inbound.undecodable => true
  | Inbound.msg m =>
    match m.typ with
    | none => true
    | some "ready" => m.robotId.isNone
    | some "proposal" => m.robotId.isNone || m.proposal.isNone
    | some _ => true

/-- A delivery that `robot_sync.py _on_proposal_message_callback` records
(when below the cap): decodable, a non-`None` sender, type `proposal`, and a
present `proposal` field. -/
def isValidProposalSync : Inbound → Bool
  | Inbound.undecodable => false
  | Inbound.msg m =>
    m.robotId.isSome && (m.typ == some "proposal") && m.proposal.isSome

/-- State after the sync variant's proposal callback has handled each
delivery in turn. -/
def runProposalsSync (s : SState) : List Inbound → SState
  | [] => s
  | b :: bs => runProposalsSync (onProposalMessage s b).state bs

example : barrierBroadcastCount 2 ["a", "a", "b", "c"] = 1 := by decide
example : barrierBroadcastCount 2 ["a", "a"] = 0 := by decide
example :
    (runReady (robotInit 2) ([some "a", some "a", some "b"].map readyMsg)).readyRobots.card
      = 2 := by decide

/-! ### Lemmas about the tally -/

lemma mem_keysAux (l : List String) : ∀ (seen : List String) (x : String),
    x ∈ keysAux seen l ↔ x ∈ l ∧ x ∉ seen := by
  induction l with
  | nil => intro seen x; simp [keysAux]
  | cons y ys ih =>
    intro seen x
    by_cases hy : y ∈ seen
    · rw [keysAux, if_pos hy, ih]
      by_cases hxy : x = y
      · subst hxy; simp [hy]
      · simp [hxy]
    · rw [keysAux, if_neg hy]
      simp only [List.mem_cons, ih]
      by_cases hxy : x = y
      · subst hxy; simp [hy]
      · simp [hxy]

lemma mem_counterKeys {l : List String} {x : String} : x ∈ counterKeys l ↔ x ∈ l := by
  simp [counterKeys, mem_keysAux]

lemma maxNat_cons (x : Nat) (l : List Nat) : maxNat (x :: l) = max x (maxNat l) := rfl

lemma le_maxNat : ∀ {l : List Nat} {x : Nat}, x ∈ l → x ≤ maxNat l := by
  intro l
  induction l with
  | nil => intro x h; cases h
  | cons y ys ih =>
    intro x h
    rw [maxNat_cons]
    rcases List.mem_cons.mp h with rfl | h
    · exact le_max_left _ _
    · exact Nat.le_trans (ih h) (le_max_right _ _)

lemma maxNat_mem : ∀ {l : List Nat}, l ≠ [] → maxNat l ∈ l := by
  intro l
  induction l with
  | nil => intro h; exact absurd rfl h
  | cons y ys ih =>
    intro _
    rw [maxNat_cons]
    rcases eq_or_ne ys [] with rfl | hys
    · rw [show maxNat [] = 0 from rfl, max_eq_left (Nat.zero_le y)]
      exact List.mem_cons_self _ _
    · rcases Nat.le_total (maxNat ys) y with hle | hle
      · rw [max_eq_left hle]; exact List.mem_cons_self _ _
      · rw [max_eq_right hle]; exact List.mem_cons_of_mem _ (ih hys)

lemma count_le_maxVotes (l : List String) (x : String) : l.count x ≤ maxVotes l := by
  by_cases hx : x ∈ l
  · exact le_maxNat (List.mem_map_of_mem _ (mem_counterKeys.mpr hx))
  · rw [List.count_eq_zero_of_not_mem hx]; exact Nat.zero_le _

lemma exists_maxVotes {l : List String} (h : l ≠ []) :
    ∃ k ∈ counterKeys l, l.count k = maxVotes l := by
  have hkeys : counterKeys l ≠ [] := by
    rcases l with _ | ⟨y, ys⟩
    · exact absurd rfl h
    · intro hc
      have hmem : y ∈ counterKeys (y :: ys) := mem_counterKeys.mpr (List.mem_cons_self _ _)
      rw [hc] at hmem; cases hmem
  have hmap : ((counterKeys l).map (fun k => l.count k)) ≠ [] := by
    simpa using hkeys
  rcases List.mem_map.mp (maxNat_mem hmap) with ⟨k, hk, hfk⟩
  exact ⟨k, hk, hfk⟩

lemma mem_voteWinners {l : List String} {x : String} :
    x ∈ voteWinners l ↔ x ∈ l ∧ l.count x = maxVotes l := by
  simp [voteWinners, List.mem_filter, mem_counterKeys]

lemma voteWinners_ne_nil {l : List String} (h : l ≠ []) : voteWinners l ≠ [] := by
  rcases exists_maxVotes h with ⟨k, hk, hcount⟩
  intro hw
  have hmem : k ∈ voteWinners l := mem_voteWinners.mpr ⟨mem_counterKeys.mp hk, hcount⟩
  rw [hw] at hmem; cases hmem

/-! ### Lemmas about the lexicographic comparison and the sort -/

lemma charsLe_refl : ∀ l : List Char, charsLe l l = true
  | [] => rfl
  | a :: as => by
    rw [charsLe, if_neg (lt_irrefl a), if_pos rfl]
    exact charsLe_refl as

lemma charsLe_total : ∀ l₁ l₂ : List Char, charsLe l₁ l₂ = true ∨ charsLe l₂ l₁ = true
  | [], _ => Or.inl rfl
  | _ :: _, [] => Or.inr rfl
  | a :: as, b :: bs => by
    rcases lt_trichotomy a b with h | h | h
    · left; rw [charsLe, if_pos h]
    · subst h
      rcases charsLe_total as bs with ih | ih
      · left; rw [charsLe, if_neg (lt_irrefl a), if_pos rfl]; exact ih
      · right; rw [charsLe, if_neg (lt_irrefl a), if_pos rfl]; exact ih
    · right; rw [charsLe, if_pos h]

lemma charsLe_trans : ∀ l₁ l₂ l₃ : List Char,
    charsLe l₁ l₂ = true → charsLe l₂ l₃ = true → charsLe l₁ l₃ = true
  | [], _, _, _, _ => rfl
  | _ :: _, [], _, h₁, _ => by cases h₁
  | _ :: _, _ :: _, [], _, h₂ => by cases h₂
  | a :: as, b :: bs, c :: cs, h₁, h₂ => by
    rw [charsLe] at h₁ h₂ ⊢
    by_cases hab : a < b
    · by_cases hbc : b < c
      · rw [if_pos (lt_trans hab hbc)]
      · rw [if_neg hbc] at h₂
        by_cases hbc2 : b = c
        · subst hbc2; rw [if_pos hab]
        · rw [if_neg hbc2] at h₂; cases h₂
    · rw [if_neg hab] at h₁
      by_cases hab2 : a = b
      · rw [if_pos hab2] at h₁
        subst hab2
        by_cases hbc : a < c
        · rw [if_pos hbc]
        · rw [if_neg hbc] at h₂ ⊢
          by_cases hbc2 : a = c
          · rw [if_pos hbc2] at h₂ ⊢
            exact charsLe_trans as bs cs h₁ h₂
          · rw [if_neg hbc2] at h₂; cases h₂
      · rw [if_neg hab2] at h₁; cases h₁

lemma charsLe_antisymm : ∀ l₁ l₂ : List Char,
    charsLe l₁ l₂ = true → charsLe l₂ l₁ = true → l₁ = l₂
  | [], [], _, _ => rfl
  | [], _ :: _, _, h₂ => by cases h₂
  | _ :: _, [], h₁, _ => by cases h₁
  | a :: as, b :: bs, h₁, h₂ => by
    rw [charsLe] at h₁ h₂
    by_cases hab : a < b
    · by_cases hba : b < a
      · exact absurd hba (lt_asymm hab)
      · rw [if_neg hba] at h₂
        by_cases hba2 : b = a
        · subst hba2; exact absurd hab (lt_irrefl b)
        · rw [if_neg hba2] at h₂; cases h₂
    · rw [if_neg hab] at h₁
      by_cases hab2 : a = b
      · subst hab2
        rw [if_pos rfl] at h₁
        rw [if_neg (lt_irrefl a), if_pos rfl] at h₂
        rw [charsLe_antisymm as bs h₁ h₂]
      · rw [if_neg hab2] at h₁; cases h₁

lemma strLe_refl (s : String) : strLe s s = true := charsLe_refl _

lemma strLe_total (s t : String) : strLe s t = true ∨ strLe t s = true := charsLe_total _ _

lemma strLe_trans {a b c : String} (h₁ : strLe a b = true) (h₂ : strLe b c = true) :
    strLe a c = true := charsLe_trans _ _ _ h₁ h₂

lemma strLe_antisymm {s t : String} (h₁ : strLe s t = true) (h₂ : strLe t s = true) : s = t := by
  have h := charsLe_antisymm _ _ h₁ h₂
  cases s; cases t
  exact congrArg String.mk h

lemma sortStrings_min : ∀ {l : List String}, l ≠ [] →
    ∃ w t, sortStrings l = w :: t ∧ w ∈ l ∧ ∀ y ∈ l, strLe w y = true := by
  intro l
  induction l with
  | nil => intro h; exact absurd rfl h
  | cons x xs ih =>
    intro _
    rcases eq_or_ne xs [] with rfl | hxs
    · refine ⟨x, [], rfl, List.mem_cons_self _ _, ?_⟩
      intro y hy
      rcases List.mem_cons.mp hy with rfl | h
      · exact strLe_refl y
      · cases h
    · rcases ih hxs with ⟨w, t, hsort, hmem, hmin⟩
      by_cases hxw : strLe x w = true
      · refine ⟨x, w :: t, ?_, List.mem_cons_self _ _, ?_⟩
        · show insertSorted x (sortStrings xs) = x :: w :: t
          rw [hsort, insertSorted, if_pos hxw]
        · intro y hy
          rcases List.mem_cons.mp hy with rfl | hmem2
          · exact strLe_refl y
          · exact strLe_trans hxw (hmin y hmem2)
      · have hwx : strLe w x = true := by
          rcases strLe_total x w with h1 | h1
          · exact absurd h1 hxw
          · exact h1
        refine ⟨w, insertSorted x t, ?_, List.mem_cons_of_mem _ hmem, ?_⟩
        · show insertSorted x (sortStrings xs) = w :: insertSorted x t
          rw [hsort, insertSorted, if_neg hxw]
        · intro y hy
          rcases List.mem_cons.mp hy with rfl | hmem2
          · exact hwx
          · exact hmin y hmem2

/-! ### The tally specification -/

lemma tallyRobot_spec {l : List String} (h : l ≠ []) :
    ∃ w, tallyRobot l = Outcome.set w ∧ w ∈ l ∧ l.count w = maxVotes l ∧
      ∀ y ∈ voteWinners l, strLe w y = true := by
  have hne := voteWinners_ne_nil h
  rcases hw : voteWinners l with _ | ⟨w₁, ws⟩
  · exact absurd hw hne
  rcases ws with _ | ⟨w₂, ws2⟩
  · have hm : w₁ ∈ voteWinners l := by rw [hw]; exact List.mem_cons_self _ _
    rcases mem_voteWinners.mp hm with ⟨hl, hc⟩
    refine ⟨w₁, ?_, hl, hc, ?_⟩
    · simp only [tallyRobot, hw]
    · intro y hy
      rcases List.mem_cons.mp hy with rfl | hy2
      · exact strLe_refl y
      · cases hy2
  · rcases sortStrings_min (l := w₁ :: w₂ :: ws2) (by simp) with ⟨w, t, hs, hmem, hmin⟩
    have hm : w ∈ voteWinners l := by rw [hw]; exact hmem
    rcases mem_voteWinners.mp hm with ⟨hl, hc⟩
    refine ⟨w, ?_, hl, hc, ?_⟩
    · simp only [tallyRobot, hw, hs]
    · intro y hy
      exact hmin y hy

lemma tallySync_eq_tallyRobot {l : List String} (h : l ≠ []) : tallySync l = tallyRobot l := by
  have hne := voteWinners_ne_nil h
  rcases hw : voteWinners l with _ | ⟨w₁, ws⟩
  · exact absurd hw hne
  rcases ws with _ | ⟨w₂, ws2⟩
  · simp only [tallySync, tallyRobot, hw]
  · rcases sortStrings_min (l := w₁ :: w₂ :: ws2) (by simp) with ⟨w, t, hs, -, -⟩
    simp only [tallySync, tallyRobot, hw, hs]

lemma processResults_eq_tally {l : List String} (h : l ≠ []) :
    processResults l = tallyRobot l := by
  rw [processResults, if_neg]
  simp [List.isEmpty_iff, h]

lemma processResults_spec {l : List String} (h : l ≠ []) :
    ∃ w, processResults l = Outcome.set w ∧ w ∈ l ∧
      (∀ x, l.count x ≤ l.count w) ∧
      (∀ x, l.count x = l.count w → strLe w x = true) := by
  rcases tallyRobot_spec h with ⟨w, hset, hmem, hcount, hmin⟩
  refine ⟨w, ?_, hmem, ?_, ?_⟩
  · rw [processResults_eq_tally h]; exact hset
  · intro x; rw [hcount]; exact count_le_maxVotes l x
  · intro x hx
    have hxl : x ∈ l := by
      apply List.count_pos_iff.mp
      rw [hx]
      exact List.count_pos_iff.mpr hmem
    exact hmin x (mem_voteWinners.mpr ⟨hxl, by rw [hx, hcount]⟩)

lemma processResultsSync_eq {l : List String} {n : Nat} (h : l ≠ []) (hn : ¬ l.length < n) :
    processResultsSync n l = processResults l := by
  rw [processResultsSync, if_neg, processResults_eq_tally h, tallySync_eq_tallyRobot h]
  rintro (he | hl)
  · exact h (List.isEmpty_iff.mp he)
  · exact hn hl

/-! ### Lemmas about the barrier coordinator -/

lemma onReadyMessage_sent {s : BState} (h : s.startSignalSent = true) (b : Inbound) :
    onReadyMessage s b = ⟨s, true, 0, false⟩ := by
  simp [onReadyMessage, h]

lemma runBarrier_sent {s : BState} (h : s.startSignalSent = true) :
    ∀ bs : List Inbound, runBarrier s bs = (s, 0)
  | [] => rfl
  | b :: bs => by
    simp only [runBarrier, onReadyMessage_sent h, runBarrier_sent h bs]

lemma readyStep_eq (n : Nat) (r : Finset String) (x : String) :
    onReadyMessage ⟨n, r, false⟩ (readyFrom x)
      = if (insert x r).card = n
        then ⟨⟨n, insert x r, true⟩, true, 1, true⟩
        else ⟨⟨n, insert x r, false⟩, true, 0, false⟩ := by
  have hready : (if x ∈ r then r else insert x r) = insert x r := by
    by_cases hx : x ∈ r
    · rw [if_pos hx, Finset.insert_eq_self.mpr hx]
    · rw [if_neg hx]
  simp only [onReadyMessage, readyFrom]
  rw [if_neg (by simp)]
  simp only [hready]
  rfl

lemma runBarrier_unsent (n : Nat) : ∀ (l : List String) (r : Finset String), r.card < n →
    if (r ∪ l.toFinset).card < n
    then runBarrier ⟨n, r, false⟩ (l.map readyFrom) = (⟨n, r ∪ l.toFinset, false⟩, 0)
    else (runBarrier ⟨n, r, false⟩ (l.map readyFrom)).1.startSignalSent = true
      ∧ (runBarrier ⟨n, r, false⟩ (l.map readyFrom)).2 = 1
  | [], r, hr => by
    simp only [List.map_nil, List.toFinset_nil, Finset.union_empty]
    rw [if_pos hr]
    rfl
  | x :: xs, r, hr => by
    by_cases hcard : (insert x r).card = n
    · have hstep : onReadyMessage ⟨n, r, false⟩ (readyFrom x)
          = ⟨⟨n, insert x r, true⟩, true, 1, true⟩ := by
        rw [readyStep_eq, if_pos hcard]
      have hsent := runBarrier_sent (s := ⟨n, insert x r, true⟩) rfl (xs.map readyFrom)
      have hrun : runBarrier ⟨n, r, false⟩ ((x :: xs).map readyFrom)
          = (⟨n, insert x r, true⟩, 1) := by
        simp only [List.map_cons, runBarrier, hstep, hsent]
      have hsub : insert x r ⊆ r ∪ (x :: xs).toFinset := by
        intro a ha
        rcases Finset.mem_insert.mp ha with rfl | ha
        · exact Finset.mem_union_right _ (by simp)
        · exact Finset.mem_union_left _ ha
      have hge : n ≤ (r ∪ (x :: xs).toFinset).card := hcard ▸ Finset.card_le_card hsub
      rw [if_neg (Nat.not_lt.mpr hge), hrun]
      exact ⟨rfl, rfl⟩
    · have hlt : (insert x r).card < n := by
        have hle : (insert x r).card ≤ r.card + 1 := Finset.card_insert_le _ _
        omega
      have hstep : onReadyMessage ⟨n, r, false⟩ (readyFrom x)
          = ⟨⟨n, insert x r, false⟩, true, 0, false⟩ := by
        rw [readyStep_eq, if_neg hcard]
      have hrun : runBarrier ⟨n, r, false⟩ ((x :: xs).map readyFrom)
          = runBarrier ⟨n, insert x r, false⟩ (xs.map readyFrom) := by
        simp only [List.map_cons, runBarrier, hstep]
        rw [Nat.zero_add]
      have hunion : insert x r ∪ xs.toFinset = r ∪ (x :: xs).toFinset := by
        simp [List.toFinset_cons, Finset.insert_union, Finset.union_insert]
      have ih := runBarrier_unsent n xs (insert x r) hlt
      rw [hunion] at ih
      rw [hrun]
      exact ih

/-! ### Lemmas about the robot ready phase -/

lemma onReady_readyMsg (s : RState) (a : Option String) :
    (onReady s (readyMsg a)).state
      = { s with readyRobots := insert a s.readyRobots } := by
  simp only [onReady, readyMsg]
  rw [if_pos trivial]
  by_cases h : a ∈ s.readyRobots
  · rw [if_pos h, Finset.insert_eq_self.mpr h]
  · rw [if_neg h]

lemma runReady_readyRobots : ∀ (l : List (Option String)) (s : RState),
    (runReady s (l.map readyMsg)).readyRobots = s.readyRobots ∪ l.toFinset
  | [], s => by simp [runReady]
  | x :: xs, s => by
    rw [List.map_cons, runReady, onReady_readyMsg, runReady_readyRobots xs]
    simp [List.toFinset_cons, Finset.insert_union, Finset.union_insert]

/-! ### Lemmas about the robot proposal phase -/

lemma onMessage_not_valid : ∀ {b : Inbound} {s : RState}, isValidProposal b = false →
    (onMessage s b).state = s := by
  intro b s
  cases b with
  | undecodable => intro _; rfl
  | msg m =>
    rcases m with ⟨typ, rid, prop⟩
    by_cases ht : typ = some "proposal"
    · subst ht
      cases prop with
      | none => intro _; simp [onMessage]
      | some p =>
        intro h
        by_cases hp : p = ""
        · subst hp; simp [onMessage]
        · simp [isValidProposal, hp] at h
    · intro _
      simp [onMessage, ht]

lemma runMessages_filter : ∀ (ms : List Inbound) (s : RState),
    runMessages s ms = runMessages s (ms.filter isValidProposal)
  | [], _ => rfl
  | b :: bs, s => by
    by_cases hb : isValidProposal b = true
    · rw [runMessages, List.filter_cons_of_pos hb, runMessages, runMessages_filter bs]
    · have hb2 : isValidProposal b = false := by
        cases hbv : isValidProposal b
        · rfl
        · exact absurd hbv hb
      rw [runMessages, onMessage_not_valid hb2,
        List.filter_cons_of_neg (by simp [hb2]), runMessages_filter bs]

lemma onMessage_acked (s : RState) (b : Inbound) : (onMessage s b).acked = true := by
  cases b with
  | undecodable => rfl
  | msg m =>
    simp only [onMessage]
    by_cases h1 : m.typ = some "proposal"
    · rw [if_pos h1]
    · rw [if_neg h1]
      by_cases h2 : m.typ = some "ready"
      · rw [if_pos h2]
      · rw [if_neg h2]

lemma onProposalMessage_not_validSync : ∀ {b : Inbound} {s : SState},
    isValidProposalSync b = false → (onProposalMessage s b).state = s := by
  intro b s h
  cases b with
  | undecodable => rfl
  | msg m =>
    rcases m with ⟨typ, rid, prop⟩
    rcases rid with _ | rid
    · rfl
    · by_cases ht : typ = some "proposal"
      · subst ht
        rcases prop with _ | p
        · simp [onProposalMessage]
        · simp [isValidProposalSync] at h
      · simp [onProposalMessage, ht]

lemma runProposalsSync_filter : ∀ (ms : List Inbound) (s : SState),
    runProposalsSync s ms = runProposalsSync s (ms.filter isValidProposalSync)
  | [], _ => rfl
  | b :: bs, s => by
    by_cases hb : isValidProposalSync b = true
    · rw [runProposalsSync, List.filter_cons_of_pos hb, runProposalsSync,
        runProposalsSync_filter bs]
    · have hb2 : isValidProposalSync b = false := by
        cases hbv : isValidProposalSync b
        · rfl
        · exact absurd hbv hb
      rw [runProposalsSync, onProposalMessage_not_validSync hb2,
        List.filter_cons_of_neg (by simp [hb2]), runProposalsSync_filter bs]

lemma malformed_not_validSync : ∀ {b : Inbound}, isMalformed b = true →
    isValidProposalSync b = false := by
  intro b
  cases b with
  | undecodable => intro _; rfl
  | msg m =>
    rcases m with ⟨typ, rid, prop⟩
    rcases typ with _ | t
    · intro _; simp [isValidProposalSync]
    · by_cases ht : t = "proposal"
      · subst ht
        rcases rid with _ | rid
        · intro _; simp [isValidProposalSync]
        · rcases prop with _ | p
          · intro _; simp [isValidProposalSync]
          · intro h; simp [isMalformed] at h
      · intro _
        have hne : ((some t : Option String) == some "proposal") = false := by
          simp [ht]
        simp [isValidProposalSync, hne]

lemma onProposalMessage_acked (s : SState) (b : Inbound) :
    (onProposalMessage s b).acked = true := by
  cases b with
  | undecodable => rfl
  | msg m =>
    rcases m with ⟨typ, rid, prop⟩
    rcases rid with _ | rid
    · rfl
    · by_cases ht : typ = some "proposal"
      · subst ht
        rcases prop with _ | p
        · rfl
        · by_cases hlen : s.receivedProposals.length < s.swarmSize
          · simp [onProposalMessage, hlen]
          · simp [onProposalMessage, hlen]
      · simp [onProposalMessage, ht]

lemma barrier_run_char (n : Nat) (hn : 0 < n) (l : List String) :
    (barrierBroadcastCount n l = if n ≤ l.toFinset.card then 1 else 0)
      ∧ ((barrierStateAfter n l).startSignalSent = true ↔ n ≤ l.toFinset.card) := by
  have h0 : (∅ : Finset String).card < n := by simpa using hn
  have H := runBarrier_unsent n l ∅ h0
  rw [Finset.empty_union] at H
  simp only [barrierBroadcastCount, barrierStateAfter, barrierInit]
  by_cases hc : l.toFinset.card < n
  · rw [if_pos hc] at H
    have hns : ¬ n ≤ l.toFinset.card := by omega
    rw [H]
    constructor
    · rw [if_neg hns]
    · simp [hns]
  · rw [if_neg hc] at H
    have hns : n ≤ l.toFinset.card := by omega
    rcases H with ⟨Hs, Hc⟩
    constructor
    · rw [if_pos hns]; exact Hc
    · exact ⟨fun _ => hns, fun _ => Hs⟩

/-! ### The claims -/

/-- Claim C1: for every non-empty list of collected proposals,
`_process_results` (robot.py lines 95-120) sets the final decision to a
proposal value with the highest frequency in the list, and when several
values share that highest frequency it sets it to the lexicographically
smallest of those values. -/
theorem claim_plurality_tiebreak (l : List String) (h : l ≠ []) :
    ∃ w, processResults l = Outcome.set w ∧ w ∈ l ∧
      (∀ x, l.count x ≤ l.count w) ∧
      (∀ x, l.count x = l.count w → strLe w x = true) :=
  processResults_spec h

/-- Witness for C1 at the spec's own tie-break example `{A:2, B:2, C:1}`. -/
theorem claim_plurality_tiebreak_witness :
    (["a", "b", "b", "a", "c"] : List String) ≠ [] ∧
      ∃ w, processResults ["a", "b", "b", "a", "c"] = Outcome.set w ∧
        w ∈ (["a", "b", "b", "a", "c"] : List String) ∧
        (∀ x, (["a", "b", "b", "a", "c"] : List String).count x
            ≤ (["a", "b", "b", "a", "c"] : List String).count w) ∧
        (∀ x, (["a", "b", "b", "a", "c"] : List String).count x
              = (["a", "b", "b", "a", "c"] : List String).count w →
          strLe w x = true) :=
  ⟨by decide, claim_plurality_tiebreak _ (by decide)⟩

/-- Claim C2 counterexample: `robot.py _process_results` invoked with only 2
of 3 proposals collected does not raise; it produces the decision `"x"`. -/
theorem claim_insufficient_data_counterexample :
    (["x", "y"] : List String).length < 3 ∧ processResults ["x", "y"] = Outcome.set "x" :=
  ⟨by decide, by decide⟩

/-- Claim C2 as amended: the sync variant (`robot_sync.py _process_results`)
raises the insufficient-data error whenever fewer than `swarm_size` proposals
were collected, and the base variant (`robot.py`) raises only when zero
proposals were collected; in both raising cases the final decision is left
unset. -/
theorem claim_insufficient_data_amended (n : Nat) (l : List String) (h : l.length < n) :
    processResultsSync n l
        = Outcome.raised "Not enough proposals received. Cannot determine decision"
      ∧ processResults []
          = Outcome.raised "No proposals received. Cannot determine decision" := by
  constructor
  · rw [processResultsSync, if_pos (Or.inr h)]
  · rfl

/-- Witness for the amended C2 at 2 of 3 proposals. -/
theorem claim_insufficient_data_amended_witness :
    (["x", "y"] : List String).length < 3 ∧
      (processResultsSync 3 ["x", "y"]
          = Outcome.raised "Not enough proposals received. Cannot determine decision"
        ∧ processResults []
            = Outcome.raised "No proposals received. Cannot determine decision") :=
  ⟨by decide, claim_insufficient_data_amended 3 ["x", "y"] (by decide)⟩

/-- Claim C3: over any prefix of a sequence of well-formed `ready` messages,
the barrier (`barrier.py on_ready_message`) has broadcast the start signal
exactly once if the distinct-sender count has reached `swarm_size` and never
before; `start_signal_sent` holds exactly from that point on (so it never
reverts), and once it holds every further delivery is acknowledged and leaves
the state unchanged with no rebroadcast. -/
theorem claim_barrier_start_exactly_once (n : Nat) (hn : 0 < n)
    (senders : List String) (k : Nat) :
    (barrierBroadcastCount n (senders.take k)
        = if n ≤ ((senders.take k).toFinset).card then 1 else 0)
      ∧ ((barrierStateAfter n (senders.take k)).startSignalSent = true
          ↔ n ≤ ((senders.take k).toFinset).card)
      ∧ ∀ b : Inbound, (barrierStateAfter n (senders.take k)).startSignalSent = true →
          onReadyMessage (barrierStateAfter n (senders.take k)) b
            = ⟨barrierStateAfter n (senders.take k), true, 0, false⟩ := by
  rcases barrier_run_char n hn (senders.take k) with ⟨h1, h2⟩
  exact ⟨h1, h2, fun b hs => onReadyMessage_sent hs b⟩

/-- Witness for C3: swarm size 2, senders `a, b, a`. -/
theorem claim_barrier_start_exactly_once_witness :
    (barrierBroadcastCount 2 (["a", "b", "a"].take 3)
        = if 2 ≤ ((["a", "b", "a"].take 3).toFinset).card then 1 else 0)
      ∧ ((barrierStateAfter 2 (["a", "b", "a"].take 3)).startSignalSent = true
          ↔ 2 ≤ ((["a", "b", "a"].take 3).toFinset).card) :=
  ⟨(claim_barrier_start_exactly_once 2 (by decide) ["a", "b", "a"] 3).1,
    (claim_barrier_start_exactly_once 2 (by decide) ["a", "b", "a"] 3).2.1⟩

/-- Claim C4: for every sequence of `ready` messages, possibly with repeated
senders, the `ready_robots` set built by `robot.py _on_ready` equals the set
of distinct senders of the sequence (so its cardinality is the distinct-sender
count, never more), and a duplicate `ready` from an already recorded sender
leaves the state unchanged. -/
theorem claim_ready_dedup (n : Nat) (senders : List (Option String)) :
    (runReady (robotInit n) (senders.map readyMsg)).readyRobots = senders.toFinset
      ∧ (runReady (robotInit n) (senders.map readyMsg)).readyRobots.card
          = senders.toFinset.card
      ∧ ∀ (s : RState) (a : Option String), a ∈ s.readyRobots →
          (onReady s (readyMsg a)).state = s := by
  have h := runReady_readyRobots senders (robotInit n)
  rw [show (robotInit n).readyRobots = ∅ from rfl, Finset.empty_union] at h
  refine ⟨h, by rw [h], ?_⟩
  intro s a ha
  rw [onReady_readyMsg, Finset.insert_eq_self.mpr ha]

/-- Witness for C4 on the sequence `a, a, b` and a duplicate-delivery step. -/
theorem claim_ready_dedup_witness :
    (runReady (robotInit 3) ([some "a", some "a", some "b"].map readyMsg)).readyRobots
        = ([some "a", some "a", some "b"] : List (Option String)).toFinset
      ∧ (onReady ⟨3, {some "a"}, [], none⟩ (readyMsg (some "a"))).state
          = (⟨3, {some "a"}, [], none⟩ : RState) :=
  ⟨(claim_ready_dedup 3 [some "a", some "a", some "b"]).1,
    (claim_ready_dedup 3 []).2.2 ⟨3, {some "a"}, [], none⟩ (some "a") (by decide)⟩

/-- Claim C5 counterexample: `robot.py _on_message_callback` has no cap
check — in a state that already holds `swarm_size` (= 2) proposals, a further
valid proposal message is appended, giving `swarm_size + 1`. -/
theorem claim_proposal_cap_counterexample :
    (⟨2, ∅, ["a", "b"], none⟩ : RState).receivedProposals.length
        = (⟨2, ∅, ["a", "b"], none⟩ : RState).swarmSize
      ∧ (onMessage ⟨2, ∅, ["a", "b"], none⟩
            (Inbound.msg ⟨some "proposal", some "r3", some "c"⟩)).state.receivedProposals.length
          = (⟨2, ∅, ["a", "b"], none⟩ : RState).swarmSize + 1 :=
  ⟨rfl, by decide⟩

/-- Claim C5 as amended: in the sync variant
(`robot_sync.py _on_proposal_message_callback`) the cap holds — starting from
any state with at most `swarm_size` proposals, handling any delivery keeps
`received_proposals` within the cap, acknowledges the delivery, and when the
cap is already reached the state is left entirely unchanged.  The base
variant's handler (`robot.py`) has no such cap check. -/
theorem claim_proposal_cap_amended (s : SState) (b : Inbound)
    (h : s.receivedProposals.length ≤ s.swarmSize) :
    (onProposalMessage s b).state.receivedProposals.length ≤ s.swarmSize
      ∧ (onProposalMessage s b).acked = true
      ∧ (s.receivedProposals.length = s.swarmSize → (onProposalMessage s b).state = s) := by
  cases b with
  | undecodable => exact ⟨h, rfl, fun _ => rfl⟩
  | msg m =>
    rcases m with ⟨typ, rid, prop⟩
    rcases rid with _ | rid
    · exact ⟨h, rfl, fun _ => rfl⟩
    · by_cases ht : typ = some "proposal"
      · subst ht
        rcases prop with _ | p
        · simp only [onProposalMessage]
          rw [if_pos trivial]
          exact ⟨h, rfl, fun _ => rfl⟩
        · simp only [onProposalMessage]
          rw [if_pos trivial]
          by_cases hlen : s.receivedProposals.length < s.swarmSize
          · rw [if_pos hlen]
            refine ⟨?_, rfl, ?_⟩
            · simp only [List.length_append, List.length_cons, List.length_nil]
              omega
            · intro he; exfalso; omega
          · rw [if_neg hlen]
            exact ⟨h, rfl, fun _ => rfl⟩
      · simp only [onProposalMessage]
        rw [if_neg ht]
        exact ⟨h, rfl, fun _ => rfl⟩

/-- Witness for the amended C5 at a full state (2 of 2 proposals held). -/
theorem claim_proposal_cap_amended_witness :
    (⟨2, ["a", "b"], true, none⟩ : SState).receivedProposals.length
        ≤ (⟨2, ["a", "b"], true, none⟩ : SState).swarmSize
      ∧ ((onProposalMessage ⟨2, ["a", "b"], true, none⟩
              (Inbound.msg ⟨some "proposal", some "r3", some "c"⟩)).state.receivedProposals.length
            ≤ (⟨2, ["a", "b"], true, none⟩ : SState).swarmSize
          ∧ (onProposalMessage ⟨2, ["a", "b"], true, none⟩
              (Inbound.msg ⟨some "proposal", some "r3", some "c"⟩)).acked = true
          ∧ ((⟨2, ["a", "b"], true, none⟩ : SState).receivedProposals.length
                = (⟨2, ["a", "b"], true, none⟩ : SState).swarmSize →
              (onProposalMessage ⟨2, ["a", "b"], true, none⟩
                  (Inbound.msg ⟨some "proposal", some "r3", some "c"⟩)).state
                = (⟨2, ["a", "b"], true, none⟩ : SState))) :=
  ⟨by decide, claim_proposal_cap_amended ⟨2, ["a", "b"], true, none⟩
    (Inbound.msg ⟨some "proposal", some "r3", some "c"⟩) (by decide)⟩

/-- Claim C6: `robot.py _process_results` is invariant under permutation of
the collected proposals — the decision depends only on the multiset, not on
arrival order. -/
theorem claim_tally_order_invariant (l₁ l₂ : List String) (h : l₁.Perm l₂) :
    processResults l₁ = processResults l₂ := by
  rcases eq_or_ne l₁ [] with rfl | h₁
  · rw [List.perm_nil.mp h.symm]
  · have h₂ : l₂ ≠ [] := by
      intro he
      subst he
      exact h₁ (List.perm_nil.mp h)
    rcases processResults_spec h₁ with ⟨w₁, hset₁, hmem₁, hmax₁, hmin₁⟩
    rcases processResults_spec h₂ with ⟨w₂, hset₂, hmem₂, hmax₂, hmin₂⟩
    have he₁ : l₁.count w₂ = l₁.count w₁ := by
      apply Nat.le_antisymm
      · exact hmax₁ w₂
      · calc l₁.count w₁ = l₂.count w₁ := h.count_eq w₁
          _ ≤ l₂.count w₂ := hmax₂ w₁
          _ = l₁.count w₂ := (h.count_eq w₂).symm
    have he₂ : l₂.count w₁ = l₂.count w₂ := by
      calc l₂.count w₁ = l₁.count w₁ := (h.count_eq w₁).symm
        _ = l₁.count w₂ := he₁.symm
        _ = l₂.count w₂ := h.count_eq w₂
    have hw : w₁ = w₂ := strLe_antisymm (hmin₁ w₂ he₁) (hmin₂ w₁ he₂)
    rw [hset₁, hset₂, hw]

/-- Witness for C6 on a transposed pair. -/
theorem claim_tally_order_invariant_witness :
    (["x", "y"] : List String).Perm ["y", "x"]
      ∧ processResults ["x", "y"] = processResults ["y", "x"] :=
  ⟨by decide, claim_tally_order_invariant ["x", "y"] ["y", "x"] (by decide)⟩

/-- Claim C7: a `ready` message handled during the proposal phase by
`robot.py _on_message_callback` (lines 77-79) is acknowledged and discarded:
the whole state — in particular `received_proposals` and `final_decision` —
is unchanged and consumption is not stopped. -/
theorem claim_stale_ready_discarded (s : RState) (m : Msg) (h : m.typ = some "ready") :
    onMessage s (Inbound.msg m) = ⟨s, true, false⟩ := by
  simp only [onMessage]
  rw [if_neg (by rw [h]; simp), if_pos h]

/-- Witness for C7 on a concrete stale `ready` message. -/
theorem claim_stale_ready_discarded_witness :
    (readyMsg (some "r1")).typ = some "ready"
      ∧ onMessage (robotInit 2) (Inbound.msg (readyMsg (some "r1")))
          = ⟨robotInit 2, true, false⟩ :=
  ⟨rfl, claim_stale_ready_discarded (robotInit 2) (readyMsg (some "r1")) rfl⟩

/-- Claim C8 counterexample: a proposal message missing its required
`robot_id` is malformed per the spec's wire schema, yet
`robot.py _on_message_callback` never checks the sender and appends its value:
interleaving it before one valid proposal changes `collected_proposals` from
`["a"]` to `["A", "a"]` and flips the final decision from `"a"` to `"A"`. -/
theorem claim_malformed_resilience_counterexample :
    isMalformed (Inbound.msg ⟨some "proposal", none, some "A"⟩) = true
      ∧ (runMessages (robotInit 3)
            [Inbound.msg ⟨some "proposal", none, some "A"⟩,
              Inbound.msg ⟨some "proposal", some "r1", some "a"⟩]).receivedProposals
          = ["A", "a"]
      ∧ (runMessages (robotInit 3)
            [Inbound.msg ⟨some "proposal", some "r1", some "a"⟩]).receivedProposals
          = ["a"]
      ∧ processResults ["A", "a"] = Outcome.set "A"
      ∧ processResults ["a"] = Outcome.set "a" :=
  ⟨by decide, by decide, by decide, by decide, by decide⟩

/-- Claim C8 as amended: for the sync variant
(`robot_sync.py _on_proposal_message_callback`, which checks
`sender_id is not None`), interleaving any number of malformed deliveries
(undecodable payload, missing required field — `type`, `robot_id` or
`proposal` — or unrecognized type) into a sequence of valid proposal messages
leaves `received_proposals`, and hence the final decision, identical to
processing the valid messages alone; every malformed delivery is acknowledged
and leaves the state unchanged (the handler never raises: it is total).  The
base variant (`robot.py`) records a sender-less proposal message instead of
discarding it. -/
theorem claim_malformed_resilience_amended (s : SState) (ms : List Inbound)
    (h : ∀ b ∈ ms, isValidProposalSync b = true ∨ isMalformed b = true) :
    (runProposalsSync s ms).receivedProposals
        = (runProposalsSync s (ms.filter isValidProposalSync)).receivedProposals
      ∧ processResultsSync s.swarmSize (runProposalsSync s ms).receivedProposals
          = processResultsSync s.swarmSize
              (runProposalsSync s (ms.filter isValidProposalSync)).receivedProposals
      ∧ ∀ (s2 : SState) (b : Inbound), isMalformed b = true →
          (onProposalMessage s2 b).state = s2 ∧ (onProposalMessage s2 b).acked = true := by
  have heq := runProposalsSync_filter ms s
  exact ⟨by rw [heq], by rw [heq],
    fun s2 b hb => ⟨onProposalMessage_not_validSync (malformed_not_validSync hb),
      onProposalMessage_acked s2 b⟩⟩

/-- Witness for the amended C8: an undecodable body, a sender-less proposal
and a typeless message interleaved around one valid proposal leave the sync
variant's collected proposals identical to the valid message alone. -/
theorem claim_malformed_resilience_amended_witness :
    (∀ b ∈ [Inbound.undecodable, Inbound.msg ⟨some "proposal", none, some "A"⟩,
        Inbound.msg ⟨some "proposal", some "r1", some "a"⟩, Inbound.msg ⟨none, none, none⟩],
      isValidProposalSync b = true ∨ isMalformed b = true)
      ∧ (runProposalsSync ⟨3, [], true, none⟩
            [Inbound.undecodable, Inbound.msg ⟨some "proposal", none, some "A"⟩,
              Inbound.msg ⟨some "proposal", some "r1", some "a"⟩,
              Inbound.msg ⟨none, none, none⟩]).receivedProposals
          = (runProposalsSync ⟨3, [], true, none⟩
              ([Inbound.undecodable, Inbound.msg ⟨some "proposal", none, some "A"⟩,
                Inbound.msg ⟨some "proposal", some "r1", some "a"⟩,
                Inbound.msg ⟨none, none, none⟩].filter isValidProposalSync)).receivedProposals :=
  ⟨by decide,
    (claim_malformed_resilience_amended ⟨3, [], true, none⟩
      [Inbound.undecodable, Inbound.msg ⟨some "proposal", none, some "A"⟩,
        Inbound.msg ⟨some "proposal", some "r1", some "a"⟩,
        Inbound.msg ⟨none, none, none⟩] (by decide)).1⟩

/-- Claim C9: the decision set by `_process_results` (both variants) on a
non-empty proposal list is always an element of that list — the swarm never
decides on a value nobody proposed. -/
theorem claim_decision_membership (l : List String) (h : l ≠ []) :
    (∃ w, processResults l = Outcome.set w ∧ w ∈ l)
      ∧ ∀ n : Nat, ¬ l.length < n →
          ∃ w, processResultsSync n l = Outcome.set w ∧ w ∈ l := by
  rcases processResults_spec h with ⟨w, hset, hmem, -, -⟩
  refine ⟨⟨w, hset, hmem⟩, ?_⟩
  intro n hn
  exact ⟨w, by rw [processResultsSync_eq h hn]; exact hset, hmem⟩

/-- Witness for C9 at a complete 3-proposal round. -/
theorem claim_decision_membership_witness :
    (["x", "y", "x"] : List String) ≠ [] ∧
      ((∃ w, processResults ["x", "y", "x"] = Outcome.set w
          ∧ w ∈ (["x", "y", "x"] : List String))
        ∧ ∀ n : Nat, ¬ (["x", "y", "x"] : List String).length < n →
            ∃ w, processResultsSync n ["x", "y", "x"] = Outcome.set w
              ∧ w ∈ (["x", "y", "x"] : List String)) :=
  ⟨by decide, claim_decision_membership ["x", "y", "x"] (by decide)⟩

/-- Claim C10: any message whose type is not `ready` — for example a proposal
delivered early, during readiness synchronization — is acknowledged by
`robot.py _on_ready` and leaves the whole state unchanged: `ready_robots`
keeps its value and the message is recorded nowhere, so an early proposal is
permanently dropped. -/
theorem claim_early_proposal_dropped (s : RState) (m : Msg) (h : m.typ ≠ some "ready") :
    (onReady s m).state = s ∧ (onReady s m).acked = true := by
  constructor
  · simp only [onReady]
    rw [if_neg h]
  · rfl

/-- Witness for C10 on a proposal message arriving during readiness sync. -/
theorem claim_early_proposal_dropped_witness :
    (⟨some "proposal", some "r2", some "a"⟩ : Msg).typ ≠ some "ready"
      ∧ (onReady (robotInit 2) ⟨some "proposal", some "r2", some "a"⟩).state = robotInit 2
      ∧ (onReady (robotInit 2) ⟨some "proposal", some "r2", some "a"⟩).acked = true :=
  ⟨by decide,
    (claim_early_proposal_dropped (robotInit 2) ⟨some "proposal", some "r2", some "a"⟩
      (by decide)).1,
    (claim_early_proposal_dropped (robotInit 2) ⟨some "proposal", some "r2", some "a"⟩
      (by decide)).2⟩

end Swarm
